import Mathlib

/-!
Verification of the nalbystyle voice-agent booking core.

The definitions below are a shallow embedding of the repository's
TypeScript sources:

* src/services/bookingManager.ts  (slot availability, free-slot grid)
* src/components/VoiceAgent.tsx   (tool-calling orchestrator: caches,
  slot re-check, dedup, reconnect policy, conversation-log finalization,
  per-call timeout wrapper)
* src/unnamed/part_006            (useConversation booking state machine)
* src/unnamed/part_001            (VoiceAgentHybrid turn/VAD controller)
* src/services/conversationLogService.ts (log outcomes)

JavaScript Date values are modelled by local calendar/time components
(year, month, day, hour, minute); millisecond clocks are Nat timestamps.
-/

namespace Nalby

/-- Local date-time components, standing for a JS Date built from local
strings (the code only ever compares year/month/day and hour/minute). -/
structure DateTime where
  year : Nat
  month : Nat
  day : Nat
  hour : Nat
  minute : Nat
deriving DecidableEq, Repr

/-- Appointment status, from src/unnamed/part_000 (types.ts). -/
inductive ApptStatus where
  | pending
  | confirmed
  | completed
  | cancelled
deriving DecidableEq, Repr

/-- An appointment record, from types.ts; the ISO date string is modelled
by its local components. -/
structure Appointment where
  id : String
  customerName : String
  customerEmail : String
  serviceId : String
  barberId : String
  date : DateTime
  status : ApptStatus
deriving DecidableEq, Repr

/-- A barber, reduced to the fields the orchestrator logic reads. -/
structure Barber where
  id : String
  nameBg : String
deriving DecidableEq, Repr

/-- A service, reduced to the fields the orchestrator logic reads. -/
structure Service where
  id : String
  nameBg : String
  price : Nat
deriving DecidableEq, Repr

/-- Split a character list at a separator (the JS str.split pattern),
written by structural recursion so all definitions evaluate. -/
def splitChars (sep : Char) : List Char → List (List Char)
  | [] => [[]]
  | x :: xs =>
    match splitChars sep xs with
    | [] => [[]]
    | g :: gs => if x == sep then [] :: g :: gs else (x :: g) :: gs

/-- Read a nonempty all-digit character list as a number (the JS
Number(str) use on date and time fields). -/
def digitsToNat? (l : List Char) : Option Nat :=
  if l.isEmpty then none
  else if l.all Char.isDigit then
    some (l.foldl (fun n c => n * 10 + (c.toNat - 48)) 0)
  else none

/-- str.startsWith, by structural list recursion. -/
def strStartsWith (s p : String) : Bool := p.data.isPrefixOf s.data

/-- str.trim, by structural list recursion. -/
def strTrim (s : String) : String :=
  String.mk (((s.data.dropWhile Char.isWhitespace).reverse.dropWhile
    Char.isWhitespace).reverse)

/-- Parse "YYYY-MM-DD". -/
def parseDate (s : String) : Option (Nat × Nat × Nat) :=
  match splitChars '-' s.data with
  | [y, mo, d] =>
    match digitsToNat? y, digitsToNat? mo, digitsToNat? d with
    | some yy, some mm, some dd => some (yy, mm, dd)
    | _, _, _ => none
  | _ => none

/-- Parse "HH:MM" (the slot.split pattern of the source). -/
def parseTime (s : String) : Option (Nat × Nat) :=
  match splitChars ':' s.data with
  | [h, m] =>
    match digitsToNat? h, digitsToNat? m with
    | some hh, some mm => some (hh, mm)
    | _, _ => none
  | _ => none

/-- The JS expression new Date(dateStr + "T" + timeStr): some local
date-time when both parts parse, none for an Invalid Date. -/
def mkDateTime (dateStr timeStr : String) : Option DateTime :=
  match parseDate dateStr, parseTime timeStr with
  | some (y, mo, d), some (h, mi) => some ⟨y, mo, d, h, mi⟩
  | _, _ => none

/-- TIME_SLOTS from src/constants (part_002). -/
def TIME_SLOTS : List String :=
  ["10:00", "11:00", "12:00", "13:00", "14:00", "15:00", "16:00", "17:00", "18:00"]

/-- The per-appointment conflict test inside isSlotAvailable
(bookingManager.ts lines 18-31): same barber, not cancelled, same
calendar day and same hour:minute as the target. -/
def conflictsWith (barberId : String) (target : DateTime) (apt : Appointment) : Bool :=
  if apt.barberId != barberId || apt.status == ApptStatus.cancelled then false
  else
    apt.date.day == target.day && apt.date.month == target.month &&
      apt.date.year == target.year &&
      apt.date.hour == target.hour && apt.date.minute == target.minute

/-- bookingManager.ts isSlotAvailable: empty date or barber is trivially
available; an unparseable target (Invalid Date, all NaN comparisons
false) never conflicts. -/
def isSlotAvailable (time dateToCheck barberId : String)
    (appointments : List Appointment) : Bool :=
  if dateToCheck.isEmpty || barberId.isEmpty then true
  else
    match mkDateTime dateToCheck time with
    | none => true
    | some target => !(appointments.any (conflictsWith barberId target))

/-- bookingManager.ts getFreeSlots: the slot grid minus occupied slots. -/
def getFreeSlots (date barberId : String) (appointments : List Appointment) :
    List String :=
  TIME_SLOTS.filter (fun slot => isSlotAvailable slot date barberId appointments)

/-- Whether an appointment occupies the (time, dateToCheck) slot: same
calendar day and hour:minute as the target built by new Date; false for
an unparseable (Invalid Date) target.  This is exactly the date part of
the conflict test, without the barber and status guards. -/
def matchesSlot (time dateToCheck : String) (apt : Appointment) : Bool :=
  match mkDateTime dateToCheck time with
  | none => false
  | some target =>
    apt.date.day == target.day && apt.date.month == target.month &&
      apt.date.year == target.year &&
      apt.date.hour == target.hour && apt.date.minute == target.minute

/-- The hour component read by findSlotForBarber's past-slot skip
(slot.split of the source, first piece). -/
def slotHourOf (slot : String) : Option Nat :=
  match splitChars ':' slot.data with
  | p :: _ => digitsToNat? p
  | [] => none

/-- The skip of today's past slots in findSlotForBarber: on the current
Sofia day, a slot whose hour is at most the current hour is skipped (an
unparseable hour gives a false NaN comparison, hence no skip). -/
def skipPastSlot (currentDayStr : String) (currentHour : Nat)
    (dateStr slot : String) : Bool :=
  dateStr == currentDayStr &&
    (match slotHourOf slot with
     | some h => decide (h ≤ currentHour)
     | none => false)

/-- findSlotForBarber: scan 30 days forward (the Sofia date string of
day offset i is abstracted as dayStr i), skipping today's past slots,
and return the first (date, time, barberId) with an available slot. -/
def findSlotForBarber (currentDayStr : String) (currentHour : Nat)
    (dayStr : Nat → String) (barberId : String)
    (appointments : List Appointment) : Option (String × String × String) :=
  (List.range 30).findSome? (fun i =>
    (TIME_SLOTS.find? (fun slot =>
      !(skipPastSlot currentDayStr currentHour (dayStr i) slot) &&
        isSlotAvailable slot (dayStr i) barberId appointments)).map
      (fun slot => (dayStr i, slot, barberId)))

/-- Strict order on date-times, component-wise (the JS Date comparison
on the slot strings). -/
def dtLtB (a b : DateTime) : Bool :=
  if a.year != b.year then decide (a.year < b.year)
  else if a.month != b.month then decide (a.month < b.month)
  else if a.day != b.day then decide (a.day < b.day)
  else if a.hour != b.hour then decide (a.hour < b.hour)
  else decide (a.minute < b.minute)

/-- new Date(slot.date + "T" + slot.time) comparison of two found slots;
false when either side is an Invalid Date (NaN comparison). -/
def slotLt (s1 s2 : String × String × String) : Bool :=
  match mkDateTime s1.1 s1.2.1, mkDateTime s2.1 s2.2.1 with
  | some a, some b => dtLtB a b
  | _, _ => false

/-- The all-barbers loop of findNextAvailableSlot: keep the earliest
found slot across the barbers. -/
def findEarliestAcross (currentDayStr : String) (currentHour : Nat)
    (dayStr : Nat → String) (appointments : List Appointment)
    (barbers : List Barber) : Option (String × String × String) :=
  barbers.foldl (fun earliest barber =>
    match findSlotForBarber currentDayStr currentHour dayStr barber.id appointments with
    | some slot =>
      match earliest with
      | none => some slot
      | some e => some (if slotLt slot e then slot else e)
    | none => earliest) none

/-- findNextAvailableSlot: a truthy barberId restricts the search to that
barber, otherwise the earliest slot across all barbers is returned. -/
def findNextAvailableSlot (currentDayStr : String) (currentHour : Nat)
    (dayStr : Nat → String) (appointments : List Appointment)
    (barbers : List Barber) (requestedBarberId : Option String) :
    Option (String × String × String) :=
  match requestedBarberId with
  | some b =>
    if b.isEmpty then findEarliestAcross currentDayStr currentHour dayStr appointments barbers
    else findSlotForBarber currentDayStr currentHour dayStr b appointments
  | none => findEarliestAcross currentDayStr currentHour dayStr appointments barbers

/-- The appointments list with cancelled records removed. -/
def withoutCancelled (appts : List Appointment) : List Appointment :=
  appts.filter (fun a => !(a.status == ApptStatus.cancelled))

theorem conflictsWith_cancelled (barberId : String) (target : DateTime)
    (apt : Appointment) (h : apt.status = ApptStatus.cancelled) :
    conflictsWith barberId target apt = false := by
  simp [conflictsWith, h]

theorem any_conflicts_withoutCancelled (barberId : String) (target : DateTime)
    (l : List Appointment) :
    (withoutCancelled l).any (conflictsWith barberId target) =
      l.any (conflictsWith barberId target) := by
  induction l with
  | nil => rfl
  | cons a t ih =>
    unfold withoutCancelled at ih ⊢
    by_cases hc : a.status = ApptStatus.cancelled
    · simp [List.filter_cons, hc, conflictsWith_cancelled barberId target a hc, ih]
    · simp [List.filter_cons, hc, ih]

theorem isSlotAvailable_withoutCancelled (time date barberId : String)
    (appts : List Appointment) :
    isSlotAvailable time date barberId (withoutCancelled appts) =
      isSlotAvailable time date barberId appts := by
  unfold isSlotAvailable
  split
  · rfl
  · cases hmk : mkDateTime date time with
    | none => rfl
    | some target =>
      show (!(withoutCancelled appts).any (conflictsWith barberId target)) =
        (!appts.any (conflictsWith barberId target))
      rw [any_conflicts_withoutCancelled]

theorem getFreeSlots_withoutCancelled (date barberId : String)
    (appts : List Appointment) :
    getFreeSlots date barberId (withoutCancelled appts) =
      getFreeSlots date barberId appts := by
  unfold getFreeSlots
  apply List.filter_congr
  intro s _
  rw [isSlotAvailable_withoutCancelled]

theorem findSlotForBarber_withoutCancelled (c : String) (h : Nat)
    (dayStr : Nat → String) (b : String) (appts : List Appointment) :
    findSlotForBarber c h dayStr b (withoutCancelled appts) =
      findSlotForBarber c h dayStr b appts := by
  unfold findSlotForBarber
  have hp : (fun i : Nat =>
      (TIME_SLOTS.find? (fun slot =>
        !(skipPastSlot c h (dayStr i) slot) &&
          isSlotAvailable slot (dayStr i) b (withoutCancelled appts))).map
        (fun slot => (dayStr i, slot, b))) =
      (fun i : Nat =>
      (TIME_SLOTS.find? (fun slot =>
        !(skipPastSlot c h (dayStr i) slot) &&
          isSlotAvailable slot (dayStr i) b appts)).map
        (fun slot => (dayStr i, slot, b))) := by
    funext i
    have hq : (fun slot =>
        !(skipPastSlot c h (dayStr i) slot) &&
          isSlotAvailable slot (dayStr i) b (withoutCancelled appts)) =
        (fun slot =>
        !(skipPastSlot c h (dayStr i) slot) &&
          isSlotAvailable slot (dayStr i) b appts) := by
      funext slot
      rw [isSlotAvailable_withoutCancelled]
    rw [hq]
  rw [hp]

theorem findEarliestAcross_withoutCancelled (c : String) (h : Nat)
    (dayStr : Nat → String) (appts : List Appointment) (barbers : List Barber) :
    findEarliestAcross c h dayStr (withoutCancelled appts) barbers =
      findEarliestAcross c h dayStr appts barbers := by
  unfold findEarliestAcross
  have hf : (fun (earliest : Option (String × String × String)) (barber : Barber) =>
      match findSlotForBarber c h dayStr barber.id (withoutCancelled appts) with
      | some slot =>
        match earliest with
        | none => some slot
        | some e => some (if slotLt slot e then slot else e)
      | none => earliest) =
      (fun (earliest : Option (String × String × String)) (barber : Barber) =>
      match findSlotForBarber c h dayStr barber.id appts with
      | some slot =>
        match earliest with
        | none => some slot
        | some e => some (if slotLt slot e then slot else e)
      | none => earliest) := by
    funext earliest barber
    rw [findSlotForBarber_withoutCancelled]
  rw [hf]

/-- Claim C10: an appointment with status cancelled never occupies a
slot.  (i) isSlotAvailable is true whenever every appointment of the
requested barber that matches the (time, date) slot is cancelled — other
active bookings of the same barber at other times, or of other barbers,
do not interfere.  (ii)–(iv) cancelled records are invisible: removing
them changes nothing in isSlotAvailable, getFreeSlots or
findNextAvailableSlot, so a cancelled slot reappears as bookable in the
free grid and the earliest-slot search.  (v) isSlotAvailable is
unconditionally true when dateToCheck or barberId is empty. -/
theorem cancelled_never_occupies :
    (∀ (time date barberId : String) (appts : List Appointment),
      (∀ apt ∈ appts, apt.barberId = barberId → matchesSlot time date apt = true →
        apt.status = ApptStatus.cancelled) →
      isSlotAvailable time date barberId appts = true) ∧
    (∀ (time date barberId : String) (appts : List Appointment),
      isSlotAvailable time date barberId (withoutCancelled appts) =
        isSlotAvailable time date barberId appts) ∧
    (∀ (date barberId : String) (appts : List Appointment),
      getFreeSlots date barberId (withoutCancelled appts) =
        getFreeSlots date barberId appts) ∧
    (∀ (currentDayStr : String) (currentHour : Nat) (dayStr : Nat → String)
        (appts : List Appointment) (barbers : List Barber)
        (requestedBarberId : Option String),
      findNextAvailableSlot currentDayStr currentHour dayStr
          (withoutCancelled appts) barbers requestedBarberId =
        findNextAvailableSlot currentDayStr currentHour dayStr appts barbers
          requestedBarberId) ∧
    (∀ (time date barberId : String) (appts : List Appointment),
      date.isEmpty || barberId.isEmpty →
      isSlotAvailable time date barberId appts = true) := by
  refine ⟨?_, isSlotAvailable_withoutCancelled, getFreeSlots_withoutCancelled, ?_, ?_⟩
  · intro time date barberId appts hyp
    unfold isSlotAvailable
    split
    · rfl
    · cases hmk : mkDateTime date time with
      | none => rfl
      | some target =>
        simp only [Bool.not_eq_true']
        rw [List.any_eq_false]
        intro apt hmem hc
        unfold conflictsWith at hc
        by_cases hcond : (apt.barberId != barberId ||
            apt.status == ApptStatus.cancelled) = true
        · rw [if_pos hcond] at hc
          simp at hc
        · rw [if_neg hcond] at hc
          simp only [Bool.or_eq_true, not_or, bne_iff_ne, ne_eq, not_not,
            Bool.not_eq_true, beq_eq_false_iff_ne] at hcond
          have hmatch : matchesSlot time date apt = true := by
            unfold matchesSlot
            rw [hmk]
            exact hc
          exact hcond.2 (hyp apt hmem hcond.1 hmatch)
  · intro c h dayStr appts barbers req
    cases req with
    | none => exact findEarliestAcross_withoutCancelled c h dayStr appts barbers
    | some b =>
      unfold findNextAvailableSlot
      by_cases hb : b.isEmpty
      · simp only [hb, if_true]
        exact findEarliestAcross_withoutCancelled c h dayStr appts barbers
      · simp only [hb, if_false]
        exact findSlotForBarber_withoutCancelled c h dayStr b appts
  · intro time date barberId appts h
    unfold isSlotAvailable
    simp [h]

/-- Witness for C10 at the typical schedule: a cancelled 10:00 next to
an active (pending) 11:00 for the same barber leaves 10:00 available,
and an empty barber id is unconditionally available. -/
theorem cancelled_never_occupies_witness :
    isSlotAvailable "10:00" "2026-03-02" "b1"
      [⟨"a1", "Иван", "+359888123456", "s1", "b1", ⟨2026, 3, 2, 10, 0⟩,
        ApptStatus.cancelled⟩,
       ⟨"a2", "Петър", "+359888000111", "s1", "b1", ⟨2026, 3, 2, 11, 0⟩,
        ApptStatus.pending⟩] = true ∧
    isSlotAvailable "10:00" "2026-03-02" "" [] = true := by
  constructor
  · exact cancelled_never_occupies.1 "10:00" "2026-03-02" "b1" _ (by decide)
  · exact cancelled_never_occupies.2.2.2.2 "10:00" "2026-03-02" "" [] (by decide)

/-! ## Tool-calling orchestrator (VoiceAgent.tsx)

The orchestrator reads appointments through a per-barber-per-date cache
(appointmentsCache, TTL 15 s) and keeps the last successful booking in
lastBookingRef for the 10 s dedup window.  Each tool call is modelled as
a pure state transition taking the backend appointment store and the
millisecond clock value at the time of the call. -/

/-- TOOL_TIMEOUT_MS from VoiceAgent.tsx. -/
def TOOL_TIMEOUT_MS : Nat := 6000

/-- APPOINTMENTS_CACHE_TTL_MS from VoiceAgent.tsx. -/
def APPOINTMENTS_CACHE_TTL_MS : Nat := 15000

/-- One entry of the appointmentsCache map. -/
structure CacheEntry where
  key : String
  data : List Appointment
  ts : Nat
deriving DecidableEq, Repr

/-- The mutable refs of the orchestrator that the booking path touches. -/
structure OrchState where
  cache : List CacheEntry
  lastBooking : Option (String × Nat)
deriving DecidableEq, Repr

/-- The cache key barberId ++ ":" ++ date. -/
def cacheKey (barberId date : String) : String := barberId ++ ":" ++ date

/-- loadAppointmentsForDateRange: the backend returns the appointments of
the barber on the requested calendar day. -/
def backendReadForDate (backend : List Appointment) (barberId date : String) :
    List Appointment :=
  backend.filter (fun a =>
    a.barberId == barberId &&
    (match parseDate date with
     | some (y, mo, d) => a.date.year == y && a.date.month == mo && a.date.day == d
     | none => false))

/-- getCachedAppointmentsForDate: serve from the cache while the entry is
younger than the 15 s TTL, otherwise read the backend and refresh the
entry.  Returns the data together with the updated cache. -/
def getCachedAppointmentsForDate (cache : List CacheEntry)
    (backend : List Appointment) (barberId date : String) (now : Nat) :
    List Appointment × List CacheEntry :=
  let key := cacheKey barberId date
  match cache.find? (fun e => e.key == key) with
  | some e =>
    if now - e.ts < APPOINTMENTS_CACHE_TTL_MS then (e.data, cache)
    else
      let data := backendReadForDate backend barberId date
      (data, ⟨key, data, now⟩ :: cache.filter (fun e2 => !(e2.key == key)))
  | none =>
    let data := backendReadForDate backend barberId date
    (data, ⟨key, data, now⟩ :: cache.filter (fun e2 => !(e2.key == key)))

/-- The wall clock of the call, as the Sofia day string and the
milliseconds elapsed since local midnight. -/
structure Clock where
  todayStr : String
  msOfDay : Nat
deriving DecidableEq, Repr

/-- The slot predicate of the lead-time filter: the slot start, taken on
today's date, lies strictly more than 45 minutes after now (the source
computes (slotDate - now) / 60000 > 45 on millisecond values; an
unparseable slot gives NaN comparisons, hence false). -/
def leadTimeOk (clock : Clock) (slot : String) : Bool :=
  match parseTime slot with
  | some (h, m) => (((h * 60 + m) * 60000 : Int) - clock.msOfDay) > 2700000
  | none => false

/-- Result of the get_available_slots tool. -/
inductive SlotsOutcome where
  | error (msg : String)
  | slots (l : List String)
deriving DecidableEq, Repr

/-- The get_available_slots branch of handleToolCalls: validate the
barber, read appointments through the cache, compute the free grid, and
apply the 45-minute lead-time filter only when the date is today. -/
def getAvailableSlotsCall (clock : Clock) (barbers : List Barber)
    (st : OrchState) (backend : List Appointment) (date barberId : String)
    (now : Nat) : SlotsOutcome × OrchState :=
  if barbers.isEmpty then (SlotsOutcome.error "Няма налични фризьори.", st)
  else if !(barbers.any (fun b => b.id == barberId)) then
    (SlotsOutcome.error "Няма такъв фризьор.", st)
  else
    let rd := getCachedAppointmentsForDate st.cache backend barberId date now
    let slots0 := getFreeSlots date barberId rd.1
    let slots := if date == clock.todayStr then slots0.filter (leadTimeOk clock) else slots0
    (SlotsOutcome.slots slots, { st with cache := rd.2 })

/-- Phone normalization of the book_appointment branch: strip
non-digits, replace a leading 0 by 359, then force the 359 country
code. -/
def normalizePhone (s : String) : String :=
  let digits := String.mk (s.data.filter Char.isDigit)
  let p1 := if strStartsWith digits "0" then "359" ++ digits.drop 1 else digits
  if strStartsWith p1 "359" then p1 else "359" ++ p1

/-- formatPhoneDigits: the digits joined with single spaces. -/
def formatPhoneDigits (digits : String) : String :=
  String.intercalate " " (digits.data.map (fun c => String.mk [c]))

/-- Arguments of the book_appointment tool. -/
structure BookArgs where
  barberId : String
  serviceId : String
  date : String
  time : String
  customerName : String
  customerPhone : String
deriving DecidableEq, Repr

/-- Result value of the book_appointment tool. -/
inductive BookResult where
  | failure (error : String)
  | success (appointmentId : String) (message : String)
deriving DecidableEq, Repr

/-- Whether a book_appointment result reports success. -/
def BookResult.isSuccess : BookResult → Bool
  | .success _ _ => true
  | .failure _ => false

/-- What one book_appointment call produced: its result and the record
it wrote to the backend, if any. -/
structure BookOutcome where
  result : BookResult
  created : Option Appointment
deriving DecidableEq, Repr

/-- The book_appointment branch of handleToolCalls: catalog and argument
validation, slot re-check against the cached read, phone normalization,
the 10 s dedup window on lastBookingRef, then the backend write.  An
Invalid Date at the write step raises and is caught by the per-call
handler (modelled as the failure branch of mkDateTime). -/
def bookAppointmentCall (barbers : List Barber) (services : List Service)
    (st : OrchState) (backend : List Appointment) (now : Nat)
    (freshId : String) (args : BookArgs) : BookOutcome × OrchState :=
  if barbers.isEmpty || services.isEmpty then
    (⟨BookResult.failure "Няма налични услуги или фризьори.", none⟩, st)
  else if args.barberId.isEmpty || !(barbers.any (fun b => b.id == args.barberId)) then
    (⟨BookResult.failure "Невалиден фризьор.", none⟩, st)
  else if !(services.any (fun s => s.id == args.serviceId)) then
    (⟨BookResult.failure "Невалидна услуга.", none⟩, st)
  else
    let rd := getCachedAppointmentsForDate st.cache backend args.barberId args.date now
    let st1 : OrchState := { st with cache := rd.2 }
    if !((getFreeSlots args.date args.barberId rd.1).contains args.time) then
      (⟨BookResult.failure "Часът вече е зает. Моля изберете друг.", none⟩, st1)
    else
      let phone := normalizePhone args.customerPhone
      let bookingKey := args.barberId ++ "|" ++ args.serviceId ++ "|" ++ args.date ++
        "|" ++ args.time ++ "|" ++ phone
      let isDup :=
        match st.lastBooking with
        | some (k, ts) => k == bookingKey && now - ts < 10000
        | none => false
      if isDup then
        (⟨BookResult.success "duplicate"
            ("Часът вече е записан. Потвърждавам телефон: " ++ formatPhoneDigits phone ++ "."),
          none⟩, st1)
      else
        match mkDateTime args.date args.time with
        | none => (⟨BookResult.failure "Invalid time value", none⟩, st1)
        | some dt =>
          let appt : Appointment :=
            ⟨freshId, args.customerName, "+" ++ phone, args.serviceId, args.barberId,
              dt, ApptStatus.pending⟩
          (⟨BookResult.success freshId
              ("Готово! Часът е записан за " ++ args.date ++ " в " ++ args.time ++
                ". Потвърждавам телефон: " ++ formatPhoneDigits phone ++ "."),
            some appt⟩,
            { st1 with lastBooking := some (bookingKey, now) })

theorem any_true_isEmpty_false {α : Type} (l : List α) (p : α → Bool)
    (h : l.any p = true) : l.isEmpty = false := by
  cases l with
  | nil => simp at h
  | cons a t => rfl

/-- Claim C5: for a get_available_slots call on a valid barber, when the
requested date is today every returned slot starts strictly more than 45
minutes after the current time (so no slot within the lead-time buffer
is returned); for any other date no lead-time filtering is applied and
the result is exactly the free-slot grid computed for that barber and
date from the appointments read. -/
theorem slots_lead_time (clock : Clock) (barbers : List Barber)
    (st : OrchState) (backend : List Appointment) (date barberId : String)
    (now : Nat) (hb : barbers.any (fun b => b.id == barberId) = true) :
    (date = clock.todayStr →
      ∀ l, (getAvailableSlotsCall clock barbers st backend date barberId now).1 =
          SlotsOutcome.slots l →
        ∀ slot ∈ l, ∃ h m, parseTime slot = some (h, m) ∧
          (((h * 60 + m) * 60000 : Int) - clock.msOfDay) > 2700000) ∧
    (date ≠ clock.todayStr →
      (getAvailableSlotsCall clock barbers st backend date barberId now).1 =
        SlotsOutcome.slots (getFreeSlots date barberId
          (getCachedAppointmentsForDate st.cache backend barberId date now).1)) := by
  have hne := any_true_isEmpty_false barbers _ hb
  constructor
  · intro htoday l hl slot hslot
    simp only [getAvailableSlotsCall, hne, hb, Bool.not_true, if_false,
      Bool.false_eq_true, htoday, beq_self_eq_true, if_true] at hl
    cases hl
    have hmem := List.mem_filter.mp hslot
    have hok := hmem.2
    unfold leadTimeOk at hok
    cases hpt : parseTime slot with
    | none => rw [hpt] at hok; simp at hok
    | some p =>
      obtain ⟨h1, m1⟩ := p
      rw [hpt] at hok
      refine ⟨h1, m1, rfl, ?_⟩
      simpa using hok
  · intro hother
    have : (date == clock.todayStr) = false := by
      simp [beq_eq_false_iff_ne, hother]
    simp [getAvailableSlotsCall, hne, hb, this]

/-- Witness for C5: on a date that is not today, the call returns exactly
the free-slot grid of the cached read. -/
theorem slots_lead_time_witness :
    (getAvailableSlotsCall ⟨"2026-03-02", 32400000⟩ [⟨"b1", "Марио"⟩]
        ⟨[], none⟩ [] "2026-03-05" "b1" 0).1 =
      SlotsOutcome.slots (getFreeSlots "2026-03-05" "b1"
        (getCachedAppointmentsForDate [] [] "b1" "2026-03-05" 0).1) :=
  (slots_lead_time ⟨"2026-03-02", 32400000⟩ [⟨"b1", "Марио"⟩] ⟨[], none⟩ []
    "2026-03-05" "b1" 0 (by decide)).2 (by decide)

/-- Claim C1 (amended): for a book_appointment call with a valid barber
and service, the orchestrator re-checks the requested time against the
free-slot list computed from the appointments returned by the cached
read for that barber and date; when the time is not in that list it
returns the "slot taken" failure, creates no appointment record and
leaves lastBookingRef unchanged. -/
theorem book_slot_recheck (barbers : List Barber) (services : List Service)
    (st : OrchState) (backend : List Appointment) (now : Nat)
    (freshId : String) (args : BookArgs)
    (hbne : args.barberId.isEmpty = false)
    (hb : barbers.any (fun b => b.id == args.barberId) = true)
    (hs : services.any (fun s => s.id == args.serviceId) = true)
    (hfree : ((getFreeSlots args.date args.barberId
        (getCachedAppointmentsForDate st.cache backend args.barberId args.date now).1).contains
          args.time) = false) :
    (bookAppointmentCall barbers services st backend now freshId args).1.result =
      BookResult.failure "Часът вече е зает. Моля изберете друг." ∧
    (bookAppointmentCall barbers services st backend now freshId args).1.created = none ∧
    (bookAppointmentCall barbers services st backend now freshId args).2.lastBooking =
      st.lastBooking := by
  have hne1 := any_true_isEmpty_false barbers _ hb
  have hne2 := any_true_isEmpty_false services _ hs
  have hnm : args.time ∉ getFreeSlots args.date args.barberId
      (getCachedAppointmentsForDate st.cache backend args.barberId args.date now).1 := by
    simpa using hfree
  simp [bookAppointmentCall, hne1, hne2, hb, hs, hbne, hnm]

/-- The concrete race scenario refuting the literal claim C1: the barber
and the requested date. -/
def exBarber : Barber := ⟨"b1", "Марио"⟩

def exService : Service := ⟨"s1", "Подстригване", 25⟩

def exArgs : BookArgs := ⟨"b1", "s1", "2026-03-02", "10:00", "Иван", "0888123456"⟩

/-- The appointment another session writes to the backend between the
get_available_slots read and the book_appointment call. -/
def exOther : Appointment :=
  ⟨"x1", "Петър", "+359888000111", "s1", "b1", ⟨2026, 3, 2, 10, 0⟩, ApptStatus.pending⟩

/-- The earlier get_available_slots read at t = 0 ms against an empty
backend; it populates the appointments cache. -/
def exRead : SlotsOutcome × OrchState :=
  getAvailableSlotsCall ⟨"2026-03-01", 0⟩ [exBarber] ⟨[], none⟩ [] "2026-03-02" "b1" 0

/-- The book_appointment call 5 s later, after the other session booked
the same slot into the backend. -/
def exBook : BookOutcome × OrchState :=
  bookAppointmentCall [exBarber] [exService] exRead.2 [exOther] 5000 "a2" exArgs

/-- Counterexample to claim C1 as stated: at t = 0 the get_available_slots
read offers 10:00; another process then books (barberId, date, time) =
(b1, 2026-03-02, 10:00), so the slot is no longer free in the backend;
yet the book_appointment call at t = 5000 ms succeeds and creates a
second record, because the availability re-check is served from the 15 s
appointment cache populated by the earlier read. -/
theorem book_slot_recheck_counterexample :
    (match exRead.1 with
      | SlotsOutcome.slots l => l.contains "10:00"
      | SlotsOutcome.error _ => false) = true ∧
    ((getFreeSlots "2026-03-02" "b1" [exOther]).contains "10:00") = false ∧
    exBook.1.result.isSuccess = true ∧
    exBook.1.created.isSome = true := by decide

/-- Witness for C1: with the conflicting appointment visible in the
cached read (fresh cache), the same call fails with the "slot taken"
result and creates nothing. -/
theorem book_slot_recheck_witness :
    (bookAppointmentCall [exBarber] [exService] ⟨[], none⟩ [exOther] 5000 "a2" exArgs).1.result =
      BookResult.failure "Часът вече е зает. Моля изберете друг." ∧
    (bookAppointmentCall [exBarber] [exService] ⟨[], none⟩ [exOther] 5000 "a2" exArgs).1.created =
      none ∧
    (bookAppointmentCall [exBarber] [exService] ⟨[], none⟩ [exOther] 5000 "a2"
        exArgs).2.lastBooking = none :=
  book_slot_recheck [exBarber] [exService] ⟨[], none⟩ [exOther] 5000 "a2" exArgs
    (by decide) (by decide) (by decide) (by decide)

/-- All grid slots parse as HH:MM. -/
theorem TIME_SLOTS_parse : TIME_SLOTS.all (fun s => (parseTime s).isSome) = true := by
  decide

theorem parseTime_isSome_of_mem_TIME_SLOTS (s : String) (h : s ∈ TIME_SLOTS) :
    (parseTime s).isSome = true :=
  List.all_eq_true.mp TIME_SLOTS_parse s h

theorem mem_TIME_SLOTS_of_mem_getFreeSlots (s date barberId : String)
    (appts : List Appointment) (h : s ∈ getFreeSlots date barberId appts) :
    s ∈ TIME_SLOTS :=
  List.mem_of_mem_filter h

/-- Claim C2 (amended).  First part: when the first book_appointment call
populates the appointment cache at t1 (no prior entry, no prior booking)
and succeeds, an identical call at t2 within the 10 s dedup window
(t1 ≤ t2, t2 - t1 < 10000) is answered from the still-fresh cache, hits
the dedup guard and returns the prior-success "duplicate" result without
creating a second record — regardless of the backend contents at t2.
Second part: once the window has elapsed (10000 ≤ now - ts for the
stored booking), the dedup branch is never taken: any success is a
genuinely new booking that passed the availability re-check and created
a record. -/
theorem book_dedup_window :
    (∀ (barbers : List Barber) (services : List Service) (st : OrchState)
        (backend backend2 : List Appointment) (t1 t2 : Nat) (fid1 fid2 : String)
        (args : BookArgs),
      args.barberId.isEmpty = false →
      barbers.any (fun b => b.id == args.barberId) = true →
      services.any (fun s => s.id == args.serviceId) = true →
      st.cache.find? (fun e => e.key == cacheKey args.barberId args.date) = none →
      st.lastBooking = none →
      args.time ∈ getFreeSlots args.date args.barberId
        (backendReadForDate backend args.barberId args.date) →
      (parseDate args.date).isSome = true →
      t1 ≤ t2 → t2 - t1 < 10000 →
      ((bookAppointmentCall barbers services st backend t1 fid1 args).1.result.isSuccess = true ∧
       (bookAppointmentCall barbers services st backend t1 fid1 args).1.created.isSome = true ∧
       (bookAppointmentCall barbers services
          (bookAppointmentCall barbers services st backend t1 fid1 args).2
          backend2 t2 fid2 args).1.result =
         BookResult.success "duplicate"
           ("Часът вече е записан. Потвърждавам телефон: " ++
             formatPhoneDigits (normalizePhone args.customerPhone) ++ ".") ∧
       (bookAppointmentCall barbers services
          (bookAppointmentCall barbers services st backend t1 fid1 args).2
          backend2 t2 fid2 args).1.created = none)) ∧
    (∀ (barbers : List Barber) (services : List Service) (st : OrchState)
        (backend : List Appointment) (now : Nat) (fid : String) (args : BookArgs)
        (k : String) (ts : Nat),
      st.lastBooking = some (k, ts) → 10000 ≤ now - ts →
      (bookAppointmentCall barbers services st backend now fid args).1.result.isSuccess = true →
      (bookAppointmentCall barbers services st backend now fid args).1.created.isSome = true) := by
  constructor
  · intro barbers services st backend backend2 t1 t2 fid1 fid2 args
      hbne hb hs hnc hlb hmem hpd hle hwin
    have hne1 := any_true_isEmpty_false barbers _ hb
    have hne2 := any_true_isEmpty_false services _ hs
    have htm : (parseTime args.time).isSome = true :=
      parseTime_isSome_of_mem_TIME_SLOTS args.time
        (mem_TIME_SLOTS_of_mem_getFreeSlots _ _ _ _ hmem)
    obtain ⟨pd, hpd2⟩ := Option.isSome_iff_exists.mp hpd
    obtain ⟨y, mo, d⟩ := pd
    obtain ⟨tm, htm2⟩ := Option.isSome_iff_exists.mp htm
    obtain ⟨hh, mi⟩ := tm
    have hmk : mkDateTime args.date args.time = some ⟨y, mo, d, hh, mi⟩ := by
      simp [mkDateTime, hpd2, htm2]
    have hrd : getCachedAppointmentsForDate st.cache backend args.barberId args.date t1 =
        (backendReadForDate backend args.barberId args.date,
          ⟨cacheKey args.barberId args.date,
            backendReadForDate backend args.barberId args.date, t1⟩ ::
            st.cache.filter
              (fun e2 => !(e2.key == cacheKey args.barberId args.date))) := by
      simp only [getCachedAppointmentsForDate, hnc]
    have hc1 : bookAppointmentCall barbers services st backend t1 fid1 args =
        (⟨BookResult.success fid1
            ("Готово! Часът е записан за " ++ args.date ++ " в " ++ args.time ++
              ". Потвърждавам телефон: " ++
              formatPhoneDigits (normalizePhone args.customerPhone) ++ "."),
          some ⟨fid1, args.customerName, "+" ++ normalizePhone args.customerPhone,
            args.serviceId, args.barberId, ⟨y, mo, d, hh, mi⟩, ApptStatus.pending⟩⟩,
          ⟨⟨cacheKey args.barberId args.date,
              backendReadForDate backend args.barberId args.date, t1⟩ ::
              st.cache.filter
                (fun e2 => !(e2.key == cacheKey args.barberId args.date)),
            some (args.barberId ++ "|" ++ args.serviceId ++ "|" ++ args.date ++
              "|" ++ args.time ++ "|" ++ normalizePhone args.customerPhone, t1)⟩) := by
      simp [bookAppointmentCall, hne1, hne2, hb, hs, hbne, hrd, hlb, hmk, hmem]
    have hlt15 : t2 - t1 < APPOINTMENTS_CACHE_TTL_MS :=
      Nat.lt_of_lt_of_le hwin (by norm_num [APPOINTMENTS_CACHE_TTL_MS])
    have hrd2 : getCachedAppointmentsForDate
        (⟨cacheKey args.barberId args.date,
            backendReadForDate backend args.barberId args.date, t1⟩ ::
          st.cache.filter
            (fun e2 => !(e2.key == cacheKey args.barberId args.date)))
        backend2 args.barberId args.date t2 =
        (backendReadForDate backend args.barberId args.date,
          ⟨cacheKey args.barberId args.date,
              backendReadForDate backend args.barberId args.date, t1⟩ ::
            st.cache.filter
              (fun e2 => !(e2.key == cacheKey args.barberId args.date))) := by
      simp only [getCachedAppointmentsForDate]
      rw [List.find?_cons_of_pos _ (by simp)]
      simp [hlt15]
    refine ⟨by rw [hc1]; rfl, by rw [hc1]; rfl, ?_, ?_⟩
    · rw [hc1]
      simp [bookAppointmentCall, hne1, hne2, hb, hs, hbne, hrd2, hmem, hwin]
    · rw [hc1]
      simp [bookAppointmentCall, hne1, hne2, hb, hs, hbne, hrd2, hmem, hwin]
  · intro barbers services st backend now fid args k ts hlb hwin hsucc
    have hnd : ¬(now - ts < 10000) := by omega
    by_cases h1 : (barbers.isEmpty || services.isEmpty) = true
    · simp [bookAppointmentCall, h1, BookResult.isSuccess] at hsucc
    · by_cases h2 : (args.barberId.isEmpty ||
          !(barbers.any fun b => b.id == args.barberId)) = true
      · simp [bookAppointmentCall, h1, h2, BookResult.isSuccess] at hsucc
      · by_cases h3 : (!(services.any fun s => s.id == args.serviceId)) = true
        · simp [bookAppointmentCall, h1, h2, h3, BookResult.isSuccess] at hsucc
        · by_cases h4 : args.time ∈ getFreeSlots args.date args.barberId
            (getCachedAppointmentsForDate st.cache backend args.barberId args.date now).1
          · cases hmk : mkDateTime args.date args.time with
            | none =>
              simp [bookAppointmentCall, h1, h2, h3, h4, hlb, hnd, hmk,
                BookResult.isSuccess] at hsucc
            | some dt =>
              simp [bookAppointmentCall, h1, h2, h3, h4, hlb, hnd, hmk]
          · simp [bookAppointmentCall, h1, h2, h3, h4, hlb, BookResult.isSuccess] at hsucc

/-- First book_appointment call of the dedup scenario, 8 s after the
get_available_slots read that populated the cache (backend still empty,
so the booking succeeds). -/
def exBook1 : BookOutcome × OrchState :=
  bookAppointmentCall [exBarber] [exService] exRead.2 [] 8000 "a1" exArgs

/-- The backend after the first call wrote its appointment. -/
def exBackendAfter1 : List Appointment :=
  match exBook1.1.created with
  | some a => [a]
  | none => []

/-- The identical retry at t = 16000 ms: 8 s after the first successful
completion, inside the 10 s dedup window, but 16 s after the read that
populated the cache, so the cache entry has expired. -/
def exBook2 : BookOutcome × OrchState :=
  bookAppointmentCall [exBarber] [exService] exBook1.2 exBackendAfter1 16000 "a2" exArgs

/-- Counterexample to claim C2 as stated: the first call succeeds at
t = 8000 ms (lastBookingRef stores ts = 8000, and 16000 - 8000 < 10000,
so the retry is within the dedup window), yet the identical second call
returns the "slot taken" failure instead of the prior success, because
the slot re-check runs before the dedup guard and its fresh backend read
now sees the first booking. -/
theorem book_dedup_window_counterexample :
    exBook1.1.result.isSuccess = true ∧
    exBook1.2.lastBooking = some ("b1|s1|2026-03-02|10:00|359888123456", 8000) ∧
    16000 - 8000 < 10000 ∧
    exBook2.1.result = BookResult.failure "Часът вече е зает. Моля изберете друг." ∧
    exBook2.1.created = none := by decide

/-- Witness for C2: the two-call dedup composition at concrete inputs
(cache populated by the first call itself, retry 5 s later). -/
theorem book_dedup_window_witness :
    (bookAppointmentCall [exBarber] [exService] ⟨[], none⟩ [] 0 "a1" exArgs).1.result.isSuccess =
      true ∧
    (bookAppointmentCall [exBarber] [exService] ⟨[], none⟩ [] 0 "a1"
        exArgs).1.created.isSome = true ∧
    (bookAppointmentCall [exBarber] [exService]
        (bookAppointmentCall [exBarber] [exService] ⟨[], none⟩ [] 0 "a1" exArgs).2
        [] 5000 "a2" exArgs).1.result =
      BookResult.success "duplicate"
        ("Часът вече е записан. Потвърждавам телефон: " ++
          formatPhoneDigits (normalizePhone exArgs.customerPhone) ++ ".") ∧
    (bookAppointmentCall [exBarber] [exService]
        (bookAppointmentCall [exBarber] [exService] ⟨[], none⟩ [] 0 "a1" exArgs).2
        [] 5000 "a2" exArgs).1.created = none :=
  book_dedup_window.1 [exBarber] [exService] ⟨[], none⟩ [] [] 0 5000 "a1" "a2" exArgs
    (by decide) (by decide) (by decide) (by decide) (by decide) (by decide)
    (by decide) (by decide) (by decide)

/-! ## Conversation/booking state machine (useConversation, part_006)

updateBookingData merges a partial update into the BookingData record
with the JS spread operator and recomputes currentStep from data
completeness.  JS string truthiness (null and "" are falsy) is modelled
by the truthy predicate. -/

/-- ConversationStep from types.ts. -/
inductive ConversationStep where
  | service
  | datetime
  | name
  | phone
  | confirmation
  | complete
deriving DecidableEq, Repr

/-- BookingData from types.ts (string | null fields). -/
structure BookingData where
  service : Option String
  dateTime : Option String
  name : Option String
  phone : Option String
  price : Option Nat
deriving DecidableEq, Repr

/-- JS truthiness of a string | null value. -/
def truthy : Option String → Bool
  | none => false
  | some s => !s.isEmpty

/-- The auto-advance block of updateBookingData: the step recomputed from
data completeness. -/
def computeStep (d : BookingData) : ConversationStep :=
  if !truthy d.service then ConversationStep.service
  else if !truthy d.dateTime then ConversationStep.datetime
  else if !truthy d.name then ConversationStep.name
  else if !truthy d.phone then ConversationStep.phone
  else ConversationStep.confirmation

/-- A Partial update: absent fields leave the previous value, present
fields (possibly null) overwrite it, as the JS spread does. -/
structure BookingUpdate where
  service : Option (Option String) := none
  dateTime : Option (Option String) := none
  name : Option (Option String) := none
  phone : Option (Option String) := none
  price : Option (Option Nat) := none
deriving DecidableEq, Repr

/-- The spread merge of updateBookingData. -/
def mergeBooking (prev : BookingData) (u : BookingUpdate) : BookingData :=
  ⟨u.service.getD prev.service, u.dateTime.getD prev.dateTime,
    u.name.getD prev.name, u.phone.getD prev.phone, u.price.getD prev.price⟩

/-- The hook state touched by updateBookingData. -/
structure ConvState where
  bookingData : BookingData
  currentStep : ConversationStep
deriving DecidableEq, Repr

/-- INITIAL_BOOKING_DATA from part_006. -/
def INITIAL_BOOKING_DATA : BookingData := ⟨none, none, none, none, none⟩

/-- The hook's initial state (also the state after resetConversation). -/
def initialConvState : ConvState := ⟨INITIAL_BOOKING_DATA, ConversationStep.service⟩

/-- updateBookingData: merge the partial update and recompute the step. -/
def updateBookingData (s : ConvState) (u : BookingUpdate) : ConvState :=
  let newData := mergeBooking s.bookingData u
  ⟨newData, computeStep newData⟩

/-- Modelled from the spec wording of C3: the first unfilled field in the
canonical order service, dateTime, name, phone; confirmation when all
four are filled. -/
def firstUnfilledStep (d : BookingData) : ConversationStep :=
  if truthy d.service then
    if truthy d.dateTime then
      if truthy d.name then
        if truthy d.phone then ConversationStep.confirmation
        else ConversationStep.phone
      else ConversationStep.name
    else ConversationStep.datetime
  else ConversationStep.service

/-- Position of a step in the canonical order. -/
def stepIdx : ConversationStep → Nat
  | ConversationStep.service => 0
  | ConversationStep.datetime => 1
  | ConversationStep.name => 2
  | ConversationStep.phone => 3
  | ConversationStep.confirmation => 4
  | ConversationStep.complete => 5

/-- A filling update: every present field carries a truthy (nonempty)
value, i.e. the update fills fields and never clears one. -/
def fillOk (u : BookingUpdate) : Bool :=
  (match u.service with | some v => truthy v | none => true) &&
  (match u.dateTime with | some v => truthy v | none => true) &&
  (match u.name with | some v => truthy v | none => true) &&
  (match u.phone with | some v => truthy v | none => true)

/-- The step as a function of the four filled flags. -/
def stepOfBools (a b c e : Bool) : ConversationStep :=
  if !a then ConversationStep.service
  else if !b then ConversationStep.datetime
  else if !c then ConversationStep.name
  else if !e then ConversationStep.phone
  else ConversationStep.confirmation

theorem computeStep_eq_stepOfBools (d : BookingData) :
    computeStep d = stepOfBools (truthy d.service) (truthy d.dateTime)
      (truthy d.name) (truthy d.phone) := rfl

theorem computeStep_eq_firstUnfilled (d : BookingData) :
    computeStep d = firstUnfilledStep d := by
  unfold computeStep firstUnfilledStep
  cases truthy d.service <;> cases truthy d.dateTime <;>
    cases truthy d.name <;> cases truthy d.phone <;> rfl

theorem stepOfBools_mono (a b c e a2 b2 c2 e2 : Bool)
    (h1 : a = true → a2 = true) (h2 : b = true → b2 = true)
    (h3 : c = true → c2 = true) (h4 : e = true → e2 = true) :
    stepIdx (stepOfBools a b c e) ≤ stepIdx (stepOfBools a2 b2 c2 e2) := by
  revert h1 h2 h3 h4
  cases a <;> cases b <;> cases c <;> cases e <;>
    cases a2 <;> cases b2 <;> cases c2 <;> cases e2 <;> decide

theorem truthy_mergeField (p : Option String) (uo : Option (Option String))
    (h : (match uo with | some v => truthy v | none => true) = true)
    (hp : truthy p = true) : truthy (uo.getD p) = true := by
  cases uo with
  | none => simpa using hp
  | some v => simpa using h

/-- Claim C3: after every updateBookingData call the recomputed
currentStep is exactly the first unfilled field in canonical order
(confirmation once all four are filled), and for filling updates the
step never regresses: starting from any state satisfying the step
invariant, the step index is monotone. -/
theorem updateBookingData_step (s : ConvState) (u : BookingUpdate)
    (hf : fillOk u = true)
    (hinv : s.currentStep = computeStep s.bookingData) :
    (updateBookingData s u).currentStep =
      firstUnfilledStep (updateBookingData s u).bookingData ∧
    stepIdx s.currentStep ≤ stepIdx (updateBookingData s u).currentStep ∧
    ((truthy (updateBookingData s u).bookingData.service &&
      truthy (updateBookingData s u).bookingData.dateTime &&
      truthy (updateBookingData s u).bookingData.name &&
      truthy (updateBookingData s u).bookingData.phone) = true →
      (updateBookingData s u).currentStep = ConversationStep.confirmation) := by
  have hfs := hf
  unfold fillOk at hfs
  simp only [Bool.and_eq_true] at hfs
  obtain ⟨⟨⟨hu1, hu2⟩, hu3⟩, hu4⟩ := hfs
  refine ⟨?_, ?_, ?_⟩
  · exact computeStep_eq_firstUnfilled _
  · rw [hinv]
    show stepIdx (computeStep s.bookingData) ≤
      stepIdx (computeStep (mergeBooking s.bookingData u))
    rw [computeStep_eq_stepOfBools, computeStep_eq_stepOfBools]
    exact stepOfBools_mono _ _ _ _ _ _ _ _
      (truthy_mergeField _ _ hu1) (truthy_mergeField _ _ hu2)
      (truthy_mergeField _ _ hu3) (truthy_mergeField _ _ hu4)
  · intro hall
    simp only [updateBookingData, Bool.and_eq_true] at hall
    obtain ⟨⟨⟨ha, hb⟩, hc⟩, he⟩ := hall
    show computeStep (mergeBooking s.bookingData u) = ConversationStep.confirmation
    unfold computeStep
    simp [ha, hb, hc, he]

/-- Witness for C3: filling the service on the initial state advances the
step to dateTime (the first unfilled field). -/
theorem updateBookingData_step_witness :
    (updateBookingData initialConvState
        ⟨some (some "Подстригване"), none, none, none, some (some 25)⟩).currentStep =
      firstUnfilledStep (updateBookingData initialConvState
        ⟨some (some "Подстригване"), none, none, none, some (some 25)⟩).bookingData ∧
    stepIdx initialConvState.currentStep ≤
      stepIdx (updateBookingData initialConvState
        ⟨some (some "Подстригване"), none, none, none, some (some 25)⟩).currentStep :=
  ⟨(updateBookingData_step initialConvState _ (by decide) (by decide)).1,
   (updateBookingData_step initialConvState _ (by decide) (by decide)).2.1⟩

/-- isComplete from part_006: all four fields non-null AND the step is
confirmation. -/
def isComplete (s : ConvState) : Bool :=
  s.bookingData.service.isSome && s.bookingData.dateTime.isSome &&
    s.bookingData.name.isSome && s.bookingData.phone.isSome &&
    (s.currentStep == ConversationStep.confirmation)

/-- Claim C4: isComplete is true exactly when all four booking fields are
set and currentStep is confirmation; data completeness alone does not
make it true (a state with all four fields set but a different step is
not complete). -/
theorem isComplete_requires_confirmation :
    (∀ s : ConvState, isComplete s = true ↔
      (s.bookingData.service.isSome = true ∧
       s.bookingData.dateTime.isSome = true ∧
       s.bookingData.name.isSome = true ∧
       s.bookingData.phone.isSome = true ∧
       s.currentStep = ConversationStep.confirmation)) ∧
    isComplete ⟨⟨some "Подстригване", some "утре в 10", some "Иван",
        some "0888123456", some 25⟩, ConversationStep.name⟩ = false := by
  constructor
  · intro s
    unfold isComplete
    simp [Bool.and_eq_true, and_assoc]
  · decide

/-- Witness for C4: the characterization applied at a concrete complete
state. -/
theorem isComplete_requires_confirmation_witness :
    isComplete ⟨⟨some "Подстригване", some "утре в 10", some "Иван",
        some "0888123456", some 25⟩, ConversationStep.confirmation⟩ = true :=
  (isComplete_requires_confirmation.1 _).mpr (by decide)

/-! ## Session/reconnection manager (VoiceAgent.tsx scheduleReconnect)

scheduleReconnect is invoked once per connection-failure event (error,
close, or a failed reconnect attempt).  It is modelled as a state
transition returning the new state together with whether this call
armed a reconnect timer. -/

/-- The session status of VoiceAgent.tsx. -/
inductive SessionStatus where
  | idle
  | connecting
  | listening
  | speaking
deriving DecidableEq, Repr

/-- MAX_RECONNECTS from VoiceAgent.tsx. -/
def MAX_RECONNECTS : Nat := 2

/-- The session-level state read and written by scheduleReconnect. -/
structure SessState where
  isActive : Bool
  isUserDisconnecting : Bool
  reconnectAttempts : Nat
  status : SessionStatus
  error : Option String
deriving DecidableEq, Repr

/-- scheduleReconnect: bail out when inactive or user-disconnecting; at
or above MAX_RECONNECTS surface the terminal "connection unstable" error
and end the session without scheduling; otherwise bump the attempt
counter and arm the reconnect timer. -/
def scheduleReconnect (s : SessState) : SessState × Bool :=
  if !s.isActive || s.isUserDisconnecting then (s, false)
  else if MAX_RECONNECTS ≤ s.reconnectAttempts then
    ({ s with
        error := some "Връзката е нестабилна. Моля опитайте отново."
        status := SessionStatus.idle
        isActive := false }, false)
  else
    ({ s with
        reconnectAttempts := s.reconnectAttempts + 1
        status := SessionStatus.connecting
        error := some ("Проблем с връзката. Опит за повторно свързване (" ++
          toString (s.reconnectAttempts + 1) ++ "/" ++ toString MAX_RECONNECTS ++ ")...") },
      true)

/-- n consecutive connection failures, each invoking scheduleReconnect;
the Bool reports whether the last call armed a reconnect. -/
def failuresFrom (s : SessState) : Nat → SessState × Bool
  | 0 => (s, false)
  | n + 1 => scheduleReconnect (failuresFrom s n).1

/-- Counterexample to claim C6 as stated: starting from a fresh active
session (0 attempts), after exactly MAX_RECONNECTS = 2 consecutive
connection failures the session is still active, has scheduled a further
reconnect, and shows the retry message — not the terminal "connection
unstable" state. -/
theorem reconnect_bound_counterexample :
    (failuresFrom ⟨true, false, 0, SessionStatus.listening, none⟩ MAX_RECONNECTS).1.isActive =
      true ∧
    (failuresFrom ⟨true, false, 0, SessionStatus.listening, none⟩ MAX_RECONNECTS).2 = true ∧
    (failuresFrom ⟨true, false, 0, SessionStatus.listening, none⟩ MAX_RECONNECTS).1.error ≠
      some "Връзката е нестабилна. Моля опитайте отново." := by decide

/-- Claim C6 (amended): from a fresh active session, the terminal state
is reached on failure number MAX_RECONNECTS + 1 — i.e. only after
MAX_RECONNECTS reconnect attempts have been consumed does the next
failure surface the "connection unstable" error, set the session
inactive and idle, and schedule nothing; and once the user-disconnect
flag is set, scheduleReconnect never schedules a reconnect and leaves
the state unchanged, regardless of the attempt count. -/
theorem reconnect_bound (s : SessState)
    (ha : s.isActive = true) (hu : s.isUserDisconnecting = false)
    (h0 : s.reconnectAttempts = 0) :
    ((failuresFrom s (MAX_RECONNECTS + 1)).1.error =
        some "Връзката е нестабилна. Моля опитайте отново." ∧
      (failuresFrom s (MAX_RECONNECTS + 1)).1.isActive = false ∧
      (failuresFrom s (MAX_RECONNECTS + 1)).1.status = SessionStatus.idle ∧
      (failuresFrom s (MAX_RECONNECTS + 1)).2 = false) ∧
    (∀ s2 : SessState, s2.isUserDisconnecting = true →
      scheduleReconnect s2 = (s2, false)) := by
  constructor
  · obtain ⟨a, b, n, st, e⟩ := s
    simp only at ha hu h0
    subst ha hu h0
    simp [failuresFrom, scheduleReconnect, MAX_RECONNECTS]
  · intro s2 h2
    unfold scheduleReconnect
    simp [h2]

/-- Witness for C6 at the fresh session state. -/
theorem reconnect_bound_witness :
    (failuresFrom ⟨true, false, 0, SessionStatus.listening, none⟩
        (MAX_RECONNECTS + 1)).1.isActive = false ∧
    (failuresFrom ⟨true, false, 0, SessionStatus.listening, none⟩
        (MAX_RECONNECTS + 1)).2 = false :=
  ⟨((reconnect_bound ⟨true, false, 0, SessionStatus.listening, none⟩
      (by decide) (by decide) (by decide)).1).2.1,
   ((reconnect_bound ⟨true, false, 0, SessionStatus.listening, none⟩
      (by decide) (by decide) (by decide)).1).2.2.2⟩

/-! ## Conversation-log finalization (handleToggle / handleToolCalls)

handleToolCalls sets bookingCreated when a successful result comes back
for book_appointment, reschedule_appointment or cancel_appointment (the
"meaningful action" tracking); handleToggle on user stop finalizes the
log exactly once with outcome completed when the flag is set, else
abandoned, and clears the log id. -/

/-- Conversation log outcomes (conversationLogService.ts). -/
inductive LogOutcome where
  | active
  | completed
  | abandoned
  | error
deriving DecidableEq, Repr

/-- The session-scoped refs feeding endConversationLog, plus the list of
finalize calls that have been issued (to state the exactly-once part). -/
structure LogState where
  logId : Option String
  bookingCreated : Bool
  finalized : List (LogOutcome × Bool)
deriving DecidableEq, Repr

/-- The three tool names whose success sets bookingCreated. -/
def isMutatingTool (name : String) : Bool :=
  name == "book_appointment" || name == "reschedule_appointment" ||
    name == "cancel_appointment"

/-- Events of one session that touch the log state. -/
inductive SessionEvent where
  | toolResult (name : String) (success : Bool)
  | userStop
deriving DecidableEq, Repr

/-- One event step: tool results set the flag (only while a log is open,
as in the source's conversationLogId guard); a user stop finalizes with
completed/abandoned according to the flag and clears the log id. -/
def logStep (s : LogState) : SessionEvent → LogState
  | SessionEvent.toolResult name success =>
    if s.logId.isSome then
      if success && isMutatingTool name then { s with bookingCreated := true } else s
    else s
  | SessionEvent.userStop =>
    match s.logId with
    | some _ =>
      { s with
          logId := none
          finalized := s.finalized ++
            [(if s.bookingCreated then LogOutcome.completed else LogOutcome.abandoned,
              s.bookingCreated)] }
    | none => s

/-- Run a session event list. -/
def runLog (s : LogState) (evs : List SessionEvent) : LogState := evs.foldl logStep s

/-- The state right after startConversationLog. -/
def startLogState (id : String) : LogState := ⟨some id, false, []⟩

/-- Whether some tool event of the session is a successful mutating call. -/
def anyMutatingSuccess (tools : List (String × Bool)) : Bool :=
  tools.any (fun t => t.2 && isMutatingTool t.1)

theorem logStep_of_none (s : LogState) (e : SessionEvent)
    (h : s.logId = none) : logStep s e = s := by
  cases e with
  | toolResult name success => simp [logStep, h]
  | userStop => simp [logStep, h]

theorem runLog_of_none (s : LogState) (evs : List SessionEvent)
    (h : s.logId = none) : runLog s evs = s := by
  induction evs with
  | nil => rfl
  | cons e t ih =>
    show runLog (logStep s e) t = s
    rw [logStep_of_none s e h, ih]

theorem runLog_tools (id : String) (b0 : Bool) (tools : List (String × Bool)) :
    runLog ⟨some id, b0, []⟩ (tools.map (fun t => SessionEvent.toolResult t.1 t.2)) =
      ⟨some id, b0 || anyMutatingSuccess tools, []⟩ := by
  induction tools generalizing b0 with
  | nil => simp [runLog, anyMutatingSuccess]
  | cons t ts ih =>
    have hstep : logStep ⟨some id, b0, []⟩ (SessionEvent.toolResult t.1 t.2) =
        ⟨some id, b0 || (t.2 && isMutatingTool t.1), []⟩ := by
      by_cases h : (t.2 && isMutatingTool t.1) = true
      · simp [logStep, h]
      · simp [logStep, h, Bool.eq_false_iff.mpr h]
    show runLog (logStep ⟨some id, b0, []⟩ (SessionEvent.toolResult t.1 t.2))
        (ts.map (fun t => SessionEvent.toolResult t.1 t.2)) = _
    rw [hstep, ih]
    simp [anyMutatingSuccess, Bool.or_assoc]

/-- Counterexample to claim C7 as stated: a session whose only tool event
is a successful cancel_appointment — no book_appointment call succeeded
— is finalized by a user stop with outcome completed and
bookingCreated = true, not abandoned. -/
theorem log_outcome_counterexample :
    (runLog (startLogState "conv_1")
        [SessionEvent.toolResult "cancel_appointment" true, SessionEvent.userStop]).finalized =
      [(LogOutcome.completed, true)] ∧
    ([("cancel_appointment", true)].any
        (fun t => t.1 == "book_appointment" && t.2)) = false := by decide

/-- Claim C7 (amended): a session of tool events ended by the user is
finalized exactly once; the outcome is completed with
bookingCreated = true when any of book_appointment,
reschedule_appointment or cancel_appointment succeeded (in particular
when book_appointment succeeded), and abandoned with
bookingCreated = false when none of the three succeeded; after the stop
the log id is cleared so no further event finalizes again. -/
theorem log_outcome (id : String) (tools : List (String × Bool)) :
    ((runLog (startLogState id)
        (tools.map (fun t => SessionEvent.toolResult t.1 t.2) ++
          [SessionEvent.userStop])).finalized =
      [((if anyMutatingSuccess tools then LogOutcome.completed else LogOutcome.abandoned),
        anyMutatingSuccess tools)]) ∧
    (tools.any (fun t => t.1 == "book_appointment" && t.2) = true →
      (runLog (startLogState id)
        (tools.map (fun t => SessionEvent.toolResult t.1 t.2) ++
          [SessionEvent.userStop])).finalized = [(LogOutcome.completed, true)]) ∧
    (anyMutatingSuccess tools = false →
      (runLog (startLogState id)
        (tools.map (fun t => SessionEvent.toolResult t.1 t.2) ++
          [SessionEvent.userStop])).finalized = [(LogOutcome.abandoned, false)]) ∧
    (∀ rest : List SessionEvent,
      (runLog (runLog (startLogState id)
        (tools.map (fun t => SessionEvent.toolResult t.1 t.2) ++
          [SessionEvent.userStop])) rest).finalized =
      (runLog (startLogState id)
        (tools.map (fun t => SessionEvent.toolResult t.1 t.2) ++
          [SessionEvent.userStop])).finalized) := by
  have hrun : runLog (startLogState id)
      (tools.map (fun t => SessionEvent.toolResult t.1 t.2) ++ [SessionEvent.userStop]) =
      ⟨none, anyMutatingSuccess tools,
        [((if anyMutatingSuccess tools then LogOutcome.completed else LogOutcome.abandoned),
          anyMutatingSuccess tools)]⟩ := by
    unfold runLog
    rw [List.foldl_append]
    have h1 : List.foldl logStep (startLogState id)
        (tools.map (fun t => SessionEvent.toolResult t.1 t.2)) =
        ⟨some id, anyMutatingSuccess tools, []⟩ := by
      have := runLog_tools id false tools
      simpa [runLog, startLogState] using this
    rw [h1]
    simp [logStep]
  refine ⟨by rw [hrun], ?_, ?_, ?_⟩
  · intro hbook
    have hmut : anyMutatingSuccess tools = true := by
      obtain ⟨t, hmem, hp⟩ := List.any_eq_true.mp hbook
      refine List.any_eq_true.mpr ⟨t, hmem, ?_⟩
      have := (Bool.and_eq_true _ _).mp hp
      simp [isMutatingTool, this.1, this.2]
    rw [hrun, hmut]
    simp
  · intro hmut
    rw [hrun, hmut]
    simp
  · intro rest
    rw [hrun, runLog_of_none _ _ rfl]

/-- Witness for C7: a session with a successful book_appointment call is
finalized as completed with bookingCreated = true. -/
theorem log_outcome_witness :
    (runLog (startLogState "conv_2")
        ([("get_services", true), ("book_appointment", true)].map
          (fun t => SessionEvent.toolResult t.1 t.2) ++
          [SessionEvent.userStop])).finalized = [(LogOutcome.completed, true)] :=
  (log_outcome "conv_2" [("get_services", true), ("book_appointment", true)]).2.1
    (by decide)

/-! ## Turn/VAD controller (VoiceAgentHybrid, part_001)

handleTranscript clears the pending silence timer on every update and
arms a new 1.5 s timer when the incremental text is longer than 5
characters and no processing is under way; handleFinalTranscript enters
the processing state unless already processing or the text is blank.
Timers are modelled by a list of live (id, text) timers plus the single
vadTimeoutRef holding the last armed id, so that "at most one timer is
live" is a provable property rather than an assumption. -/

/-- The hybrid component status. -/
inductive TurnStatus where
  | idle
  | listening
  | processing
  | speaking
deriving DecidableEq, Repr

/-- The controller state: status, the isProcessingRef flag, the current
transcript, the live timers, the vadTimeoutRef id, and an id counter. -/
structure TurnState where
  status : TurnStatus
  isProcessing : Bool
  transcript : String
  timers : List (Nat × String)
  refd : Option Nat
  nextId : Nat
deriving DecidableEq, Repr

/-- clearTimeout(vadTimeoutRef.current): remove the ref'd timer from the
live set if still pending. -/
def clearVadTimeout (s : TurnState) : TurnState :=
  match s.refd with
  | some id => { s with timers := s.timers.filter (fun p => !(p.1 == id)) }
  | none => s

/-- setTimeout: arm a fresh silence timer and point vadTimeoutRef at it. -/
def armTimer (s : TurnState) (text : String) : TurnState :=
  { s with
      timers := s.timers ++ [(s.nextId, text)]
      refd := some s.nextId
      nextId := s.nextId + 1 }

/-- handleTranscript(text, isFinalResult): store the transcript, clear
the pending timer, and arm a new one when the text has more than 5
characters, is not final, and nothing is processing (isProcessingRef is
untouched by the clearing, so the guard reads the same flag as the
source). -/
def handleTranscript (s : TurnState) (text : String) (isFinalResult : Bool) :
    TurnState :=
  if text.length > 5 && !isFinalResult && !s.isProcessing then
    armTimer (clearVadTimeout { s with transcript := text }) text
  else clearVadTimeout { s with transcript := text }

/-- handleFinalTranscript(text): enter processing unless already
processing or the trimmed text is empty. -/
def handleFinalTranscript (s : TurnState) (text : String) : TurnState :=
  if s.isProcessing || (strTrim text).isEmpty then s
  else { s with
      isProcessing := true
      status := TurnStatus.processing }

/-- Events of the utterance window: incremental transcript callbacks,
the STT final-transcript signal, and a silence-timer firing. -/
inductive TurnEvent where
  | transcript (text : String) (isFinal : Bool)
  | finalSignal (text : String)
  | fire
deriving DecidableEq, Repr

/-- One event step; a firing consumes the (unique) live timer and runs
handleFinalTranscript on its text. -/
def stepTurn (s : TurnState) : TurnEvent → TurnState
  | TurnEvent.transcript t f => handleTranscript s t f
  | TurnEvent.finalSignal t => handleFinalTranscript s t
  | TurnEvent.fire =>
    match s.timers with
    | [] => s
    | (id, t) :: _ =>
      handleFinalTranscript
        { s with timers := s.timers.filter (fun p => !(p.1 == id)) } t

/-- Run an event list. -/
def runTurn (s : TurnState) (evs : List TurnEvent) : TurnState := evs.foldl stepTurn s

/-- Number of transitions into the processing state along a run. -/
def procCount (s : TurnState) : List TurnEvent → Nat
  | [] => 0
  | e :: evs =>
    (if !s.isProcessing && (stepTurn s e).isProcessing then 1 else 0) +
      procCount (stepTurn s e) evs

/-- At most one silence timer is live, and it is the ref'd one. -/
def oneTimer (s : TurnState) : Prop :=
  s.timers = [] ∨ ∃ id t, s.timers = [(id, t)] ∧ s.refd = some id

/-- The terminal event of an utterance actually triggers processing:
a final signal with nonblank text, or the firing of a live timer whose
text is nonblank. -/
def triggersProcessing (s : TurnState) : TurnEvent → Prop
  | TurnEvent.transcript _ _ => False
  | TurnEvent.finalSignal t => (strTrim t).isEmpty = false
  | TurnEvent.fire =>
    ∃ id t rest2, s.timers = (id, t) :: rest2 ∧ (strTrim t).isEmpty = false

theorem clearVadTimeout_isProcessing (s : TurnState) :
    (clearVadTimeout s).isProcessing = s.isProcessing := by
  unfold clearVadTimeout
  cases s.refd <;> rfl

theorem clearVadTimeout_timers (s : TurnState) (h : oneTimer s) :
    (clearVadTimeout s).timers = [] := by
  rcases h with h | ⟨id, t, ht, hr⟩
  · unfold clearVadTimeout
    cases s.refd <;> simp [h]
  · unfold clearVadTimeout
    rw [hr, ht]
    simp

theorem handleTranscript_isProcessing (s : TurnState) (t : String) (f : Bool) :
    (handleTranscript s t f).isProcessing = s.isProcessing := by
  unfold handleTranscript
  split
  · show (clearVadTimeout { s with transcript := t }).isProcessing = s.isProcessing
    rw [clearVadTimeout_isProcessing]
  · rw [clearVadTimeout_isProcessing]

theorem handleFinalTranscript_isProcessing_true (s : TurnState) (t : String)
    (h : s.isProcessing = true) : handleFinalTranscript s t = s := by
  simp [handleFinalTranscript, h]

theorem stepTurn_fire_eq (s : TurnState) :
    stepTurn s TurnEvent.fire = (match s.timers with
      | [] => s
      | (id, _t) :: _ =>
        handleFinalTranscript
          { s with timers := s.timers.filter (fun p => !(p.1 == id)) }
          _t) := rfl

theorem stepTurn_processing_absorbing (s : TurnState) (e : TurnEvent)
    (h : s.isProcessing = true) : (stepTurn s e).isProcessing = true := by
  cases e with
  | transcript t f => rw [show stepTurn s (TurnEvent.transcript t f) =
      handleTranscript s t f from rfl, handleTranscript_isProcessing]; exact h
  | finalSignal t => rw [show stepTurn s (TurnEvent.finalSignal t) =
      handleFinalTranscript s t from rfl,
      handleFinalTranscript_isProcessing_true s t h]; exact h
  | fire =>
    rw [stepTurn_fire_eq]
    cases htm : s.timers with
    | nil => exact h
    | cons p rest =>
      obtain ⟨id, t⟩ := p
      show (handleFinalTranscript
        { s with timers := ((id, t) :: rest).filter (fun p => !(p.1 == id)) }
        t).isProcessing = true
      rw [handleFinalTranscript_isProcessing_true
        { s with timers := ((id, t) :: rest).filter (fun p => !(p.1 == id)) } t h]
      exact h

theorem procCount_of_processing (s : TurnState) (evs : List TurnEvent)
    (h : s.isProcessing = true) : procCount s evs = 0 := by
  induction evs generalizing s with
  | nil => rfl
  | cons e t ih =>
    unfold procCount
    rw [h, ih _ (stepTurn_processing_absorbing s e h)]
    simp

theorem procCount_append (s : TurnState) (a b : List TurnEvent) :
    procCount s (a ++ b) = procCount s a + procCount (runTurn s a) b := by
  induction a generalizing s with
  | nil => simp [procCount, runTurn]
  | cons e t ih =>
    show (if (!s.isProcessing && (stepTurn s e).isProcessing) = true then 1 else 0) +
        procCount (stepTurn s e) (t ++ b) =
      (if (!s.isProcessing && (stepTurn s e).isProcessing) = true then 1 else 0) +
        procCount (stepTurn s e) t + procCount (runTurn (stepTurn s e) t) b
    rw [ih (stepTurn s e)]
    omega

theorem runTurn_updates_not_processing (s : TurnState) (updates : List String)
    (h : s.isProcessing = false) :
    (runTurn s (updates.map (fun t => TurnEvent.transcript t false))).isProcessing = false ∧
    procCount s (updates.map (fun t => TurnEvent.transcript t false)) = 0 := by
  induction updates generalizing s with
  | nil => exact ⟨h, rfl⟩
  | cons u us ih =>
    have hstep : (stepTurn s (TurnEvent.transcript u false)).isProcessing = false := by
      rw [show stepTurn s (TurnEvent.transcript u false) =
        handleTranscript s u false from rfl, handleTranscript_isProcessing]
      exact h
    have hrec := ih (stepTurn s (TurnEvent.transcript u false)) hstep
    refine ⟨hrec.1, ?_⟩
    simp only [List.map_cons, procCount, hstep, Bool.and_false]
    simpa using hrec.2

theorem stepTurn_triggers (s : TurnState) (e : TurnEvent)
    (h : s.isProcessing = false) (htr : triggersProcessing s e) :
    (stepTurn s e).isProcessing = true := by
  cases e with
  | transcript t f => exact absurd htr (by simp [triggersProcessing])
  | finalSignal t =>
    have hne : (strTrim t).isEmpty = false := htr
    show (handleFinalTranscript s t).isProcessing = true
    simp [handleFinalTranscript, h, hne]
  | fire =>
    obtain ⟨id, t, rest2, htm, hne⟩ := htr
    rw [stepTurn_fire_eq, htm]
    show (handleFinalTranscript
      { s with timers := ((id, t) :: rest2).filter (fun p => !(p.1 == id)) }
      t).isProcessing = true
    simp [handleFinalTranscript, h, hne]

theorem stepTurn_oneTimer (s : TurnState) (e : TurnEvent) (h : oneTimer s) :
    oneTimer (stepTurn s e) := by
  cases e with
  | transcript t f =>
    show oneTimer (handleTranscript s t f)
    have hone : oneTimer { s with transcript := t } := by
      rcases h with h | ⟨id, tt, ht, hr⟩
      · exact Or.inl h
      · exact Or.inr ⟨id, tt, ht, hr⟩
    have hcl : (clearVadTimeout { s with transcript := t }).timers = [] :=
      clearVadTimeout_timers _ hone
    unfold handleTranscript
    split
    · right
      refine ⟨(clearVadTimeout { s with transcript := t }).nextId, t, ?_, rfl⟩
      show (clearVadTimeout { s with transcript := t }).timers ++ _ = _
      rw [hcl]
      rfl
    · exact Or.inl hcl
  | finalSignal t =>
    show oneTimer (handleFinalTranscript s t)
    unfold handleFinalTranscript
    split
    · exact h
    · rcases h with h | ⟨id, tt, ht, hr⟩
      · exact Or.inl h
      · exact Or.inr ⟨id, tt, ht, hr⟩
  | fire =>
    rw [stepTurn_fire_eq]
    rcases h with h | ⟨id, tt, ht, hr⟩
    · rw [h]
      exact Or.inl h
    · rw [ht]
      show oneTimer (handleFinalTranscript
        { s with timers := [(id, tt)].filter (fun p => !(p.1 == id)) } tt)
      have hflt2 : [(id, tt)].filter (fun p => !(p.1 == id)) = [] := by simp
      unfold handleFinalTranscript
      split
      · exact Or.inl hflt2
      · exact Or.inl hflt2

theorem oneTimer_length (s : TurnState) (h : oneTimer s) : s.timers.length ≤ 1 := by
  rcases h with h | ⟨id, t, ht, _⟩
  · simp [h]
  · simp [ht]

/-- Claim C8 (amended): starting from a non-processing state, a run made
of incremental transcript updates followed by a terminal event that
actually triggers (a final signal with nonblank text, or the firing of a
live timer armed with nonblank text), followed by any further utterance
events, transitions into processing exactly once; moreover every event
preserves the at-most-one-live-timer invariant, so a new incremental
update always clears the previous silence timer before arming its own. -/
theorem turn_processing_once (s0 : TurnState) (updates : List String)
    (term : TurnEvent) (rest : List TurnEvent)
    (h0 : s0.isProcessing = false)
    (htrig : triggersProcessing
      (runTurn s0 (updates.map (fun t => TurnEvent.transcript t false))) term) :
    procCount s0 (updates.map (fun t => TurnEvent.transcript t false) ++
      term :: rest) = 1 ∧
    (∀ (s : TurnState) (e : TurnEvent), oneTimer s → oneTimer (stepTurn s e)) ∧
    (∀ (s : TurnState) (e : TurnEvent), oneTimer s →
      (stepTurn s e).timers.length ≤ 1) := by
  refine ⟨?_, fun s e h => stepTurn_oneTimer s e h,
    fun s e h => oneTimer_length _ (stepTurn_oneTimer s e h)⟩
  rw [procCount_append]
  have hupd := runTurn_updates_not_processing s0 updates h0
  rw [hupd.2]
  have hterm : (stepTurn (runTurn s0
      (updates.map (fun t => TurnEvent.transcript t false))) term).isProcessing = true :=
    stepTurn_triggers _ term hupd.1 htrig
  show 0 + ((if _ then 1 else 0) + _) = 1
  rw [hupd.1]
  simp only [hterm, Bool.not_false, Bool.true_and, if_true]
  rw [procCount_of_processing _ rest hterm]

/-- Witness for C8: two incremental updates then the silence timer fires;
the controller enters processing exactly once even though two further
(stale) terminal events follow. -/
theorem turn_processing_once_witness :
    procCount ⟨TurnStatus.listening, false, "", [], none, 0⟩
      ((["Здравей", "Здравей, искам час"].map
        (fun t => TurnEvent.transcript t false)) ++
        TurnEvent.fire :: [TurnEvent.fire,
          TurnEvent.finalSignal "Здравей, искам час"]) = 1 :=
  (turn_processing_once ⟨TurnStatus.listening, false, "", [], none, 0⟩
    ["Здравей", "Здравей, искам час"] TurnEvent.fire
    [TurnEvent.fire, TurnEvent.finalSignal "Здравей, искам час"]
    (by decide) ⟨1, "Здравей, искам час", [], by decide, by decide⟩).1

/-- Counterexample to claim C8 as stated: an utterance whose accumulated
text is six spaces (longer than 5 characters) arms the silence timer,
but when the timer fires handleFinalTranscript rejects the blank text,
so the controller transitions to processing zero times, not exactly
once. -/
theorem turn_processing_once_counterexample :
    ("      ".length > 5) = true ∧
    procCount ⟨TurnStatus.listening, false, "", [], none, 0⟩
      [TurnEvent.transcript "      " false, TurnEvent.fire] = 0 ∧
    (runTurn ⟨TurnStatus.listening, false, "", [], none, 0⟩
      [TurnEvent.transcript "      " false, TurnEvent.fire]).isProcessing = false := by
  decide

/-! ## Per-call result wrapping and timeouts (handleToolCalls, withTimeout)

Each tool call in a batch runs inside its own try/catch; the catch maps
a timeout rejection to the localized "slow connection" message and any
other error to its message (or a generic one), and always produces a
response keyed by the call id.  withTimeout races the operation against
a TOOL_TIMEOUT_MS timer; an operation whose duration reaches the limit
rejects with the timeout error. -/

/-- How a tool-body execution can fail (a thrown/rejected promise). -/
inductive ToolFailure where
  | timeout
  | other (msg : String)
deriving DecidableEq, Repr

/-- One structured function call from the model. -/
structure ToolCall where
  id : String
  name : String
deriving DecidableEq, Repr

/-- The result payload placed in the response. -/
inductive ToolResult where
  | ok (payload : String)
  | err (error : String)
deriving DecidableEq, Repr

/-- One structured response, keyed by the call id. -/
structure ToolResponse where
  id : String
  name : String
  result : ToolResult
deriving DecidableEq, Repr

/-- The catch clause of handleToolCalls: timeout rejections become the
localized slow-connection message; other errors keep their message or
fall back to the generic one. -/
def toolErrorMessage : ToolFailure → String
  | ToolFailure.timeout => "Връзката е бавна. Моля опитайте пак."
  | ToolFailure.other msg => if msg.isEmpty then "Възникна грешка" else msg

/-- withTimeout: an operation with the given duration and outcome raced
against an ms timer; reaching the limit rejects with timeout. -/
def withTimeout (ms duration : Nat) (outcome : Except ToolFailure String) :
    Except ToolFailure String :=
  if ms ≤ duration then Except.error ToolFailure.timeout else outcome

/-- The per-call try/catch of handleToolCalls: run the body and always
return a response carrying the call id and either the payload or the
localized error. -/
def runToolCall (exec : ToolCall → Except ToolFailure String) (c : ToolCall) :
    ToolResponse :=
  { id := c.id
    name := c.name
    result :=
      match exec c with
      | Except.ok p => ToolResult.ok p
      | Except.error e => ToolResult.err (toolErrorMessage e) }

/-- The batch: one response per call, in order (the Promise.all join). -/
def handleToolCallsBatch (exec : ToolCall → Except ToolFailure String)
    (calls : List ToolCall) : List ToolResponse :=
  calls.map (runToolCall exec)

/-- Claim C9: every tool call in a batch yields exactly one structured
result keyed by its own call id, whatever the bodies do (no exception
escapes the per-call catch); and a backend operation whose duration
reaches TOOL_TIMEOUT_MS = 6000 ms produces the localized slow-connection
error result for that call. -/
theorem tool_batch_results (exec : ToolCall → Except ToolFailure String)
    (calls : List ToolCall) :
    ((handleToolCallsBatch exec calls).map (fun r => r.id) =
      calls.map (fun c => c.id)) ∧
    (handleToolCallsBatch exec calls).length = calls.length ∧
    (∀ c ∈ calls, runToolCall exec c ∈ handleToolCallsBatch exec calls) ∧
    (∀ c : ToolCall, exec c = Except.error ToolFailure.timeout →
      (runToolCall exec c).result =
        ToolResult.err "Връзката е бавна. Моля опитайте пак.") ∧
    (∀ (c : ToolCall) (duration : Nat) (outcome : Except ToolFailure String),
      TOOL_TIMEOUT_MS ≤ duration →
      (runToolCall (fun _ => withTimeout TOOL_TIMEOUT_MS duration outcome) c).result =
        ToolResult.err "Връзката е бавна. Моля опитайте пак.") := by
  refine ⟨?_, ?_, ?_, ?_, ?_⟩
  · simp [handleToolCallsBatch, runToolCall]
  · simp [handleToolCallsBatch]
  · intro c hc
    exact List.mem_map_of_mem (runToolCall exec) hc
  · intro c hex
    simp [runToolCall, hex, toolErrorMessage]
  · intro c duration outcome hdur
    simp [runToolCall, withTimeout, hdur, toolErrorMessage]

/-- Witness for C9: a two-call batch with one timing-out body yields two
responses keyed by the call ids, the timed-out one carrying the
slow-connection error. -/
theorem tool_batch_results_witness :
    ((handleToolCallsBatch
        (fun c => if c.name == "book_appointment"
          then withTimeout TOOL_TIMEOUT_MS 7000 (Except.ok "ok")
          else Except.ok "ok")
        [⟨"call_1", "get_barbers"⟩, ⟨"call_2", "book_appointment"⟩]).map
      (fun r => r.id) = ["call_1", "call_2"]) ∧
    (runToolCall
        (fun c => if c.name == "book_appointment"
          then withTimeout TOOL_TIMEOUT_MS 7000 (Except.ok "ok")
          else Except.ok "ok")
        ⟨"call_2", "book_appointment"⟩).result =
      ToolResult.err "Връзката е бавна. Моля опитайте пак." :=
  ⟨(tool_batch_results
      (fun c => if c.name == "book_appointment"
        then withTimeout TOOL_TIMEOUT_MS 7000 (Except.ok "ok")
        else Except.ok "ok")
      [⟨"call_1", "get_barbers"⟩, ⟨"call_2", "book_appointment"⟩]).1.trans (by decide),
   (tool_batch_results
      (fun c => if c.name == "book_appointment"
        then withTimeout TOOL_TIMEOUT_MS 7000 (Except.ok "ok")
        else Except.ok "ok")
      [⟨"call_1", "get_barbers"⟩, ⟨"call_2", "book_appointment"⟩]).2.2.2.1
     ⟨"call_2", "book_appointment"⟩ rfl⟩

end Nalby
